import Mathlib

/-!
Verification of the schema model in `ibis/expr/schema.py`.

The Python module defines an immutable `Schema` value type holding three
positionally aligned sequences (column names, column types, column
descriptions), a derived name-to-position dictionary `_name_locs`, schema
algebra (`delete`, `append`), structural equality and hashing, superset
ordering over the set of (name, type, description) triples, positional name
lookup, the alternative constructors `from_tuples` / `from_dict`, and a
dispatcher-based polymorphic constructor.

The embedding below follows the Python source line by line.  Python-level
distinctions that matter to the observable behaviour are modelled explicitly:

* the constructor normalises `names` and `types` to Python lists but stores
  `descriptions` exactly as passed, so a description sequence can be either a
  Python list or a Python tuple (`from_tuples` produces a tuple via
  `zip(*values)`); `PySeq` records that container kind, since Python `==`
  distinguishes it and `+` on mixed kinds raises `TypeError`;
* Python `dict` insertion semantics (`dict((v, i) for i, v in enumerate(ns))`)
  are modelled by an association list with insert-or-update (`dictInsert`);
* `zip` truncation to the shortest sequence is modelled by `zip3`;
* every fallible operation returns `Except PyErr _`.
-/

/-- The Python exception kinds that the schema module can surface. -/
inductive PyErr where
  | integrityError
  | keyError (name : String)
  | typeError
  | valueError (msg : String)
  | indexError
  | dispatchError
deriving DecidableEq, Repr

/-- A Python sequence value that is either a `list` or a `tuple`.  Python
`==` returns `False` across the two kinds even when the elements agree, and
`+` across the two kinds raises `TypeError`. -/
inductive PySeq (α : Type) where
  | list (l : List α)
  | tup (l : List α)
deriving DecidableEq, Repr

/-- The elements of a Python sequence, kind forgotten. -/
def PySeq.elems {α : Type} : PySeq α → List α
  | .list l => l
  | .tup l => l

/-- Whether two Python sequences are the same container kind. -/
def PySeq.sameKind {α : Type} : PySeq α → PySeq α → Bool
  | .list _, .list _ => true
  | .tup _, .tup _ => true
  | _, _ => false

/-- Whether a Python sequence is a `list` (rather than a `tuple`). -/
def PySeq.isListKind {α : Type} : PySeq α → Bool
  | .list _ => true
  | .tup _ => false

/-- Python `==` on two sequences: `True` only for the same container kind
with element-wise equal contents. -/
def PySeq.pyEq {α : Type} [DecidableEq α] : PySeq α → PySeq α → Bool
  | .list x, .list y => decide (x = y)
  | .tup x, .tup y => decide (x = y)
  | _, _ => false

/-- Python `+` on two sequences: concatenation for matching kinds,
`TypeError` for a list/tuple mix. -/
def pyConcat {α : Type} : PySeq α → PySeq α → Except PyErr (PySeq α)
  | .list x, .list y => .ok (.list (x ++ y))
  | .tup x, .tup y => .ok (.tup (x ++ y))
  | _, _ => .error .typeError

/-- Canonical column data types (opaque to this module). -/
inductive DType where
  | int8
  | int16
  | int32
  | int64
  | float64
  | string
  | boolean
deriving DecidableEq, Repr

/-- Modelled from the spec: `ibis.expr.datatypes.dtype`, the canonicalising
type-coercion collaborator, is not part of this fragment and is "treated as an
opaque function producing a canonical type value"; on already-canonical type
values it acts as the identity, which is how it is modelled here. -/
def dtype : DType → DType := id

/-- One insertion into a Python `dict` modelled as an association list:
an existing key has its value replaced in place, a new key is appended
(Python dicts preserve insertion order of keys). -/
def dictInsert (d : List (String × Nat)) (k : String) (v : Nat) :
    List (String × Nat) :=
  if d.any (fun p => p.1 == k) then
    d.map (fun p => if p.1 == k then (k, v) else p)
  else
    d ++ [(k, v)]

/-- Build the dict from successive `(name, index)` insertions, mirroring
`dict((v, i) for i, v in enumerate(names))`; `i` is the index of the head. -/
def buildLocs : List String → Nat → List (String × Nat) → List (String × Nat)
  | [], _, d => d
  | n :: ns, i, d => buildLocs ns (i + 1) (dictInsert d n i)

/-- The `_name_locs` dictionary of the schema constructor. -/
def nameLocs (names : List String) : List (String × Nat) :=
  buildLocs names 0 []

/-- Python `d[k]`-style lookup on the modelled dict, `none` for a missing
key. -/
def dictGet (d : List (String × Nat)) (k : String) : Option Nat :=
  (d.find? (fun p => p.1 == k)).map Prod.snd

/-- The `Schema` value: the three stored attributes.  `names` and `types` are
always Python lists after construction (the constructor normalises them), so
plain Lean lists model them; `descriptions` keeps its Python container kind.
The `_name_locs` slot is always `nameLocs names` (it is set once in
`__init__` and never mutated), so it is derived rather than stored. -/
structure Schema where
  names : List String
  types : List DType
  descriptions : PySeq (Option String)
deriving DecidableEq, Repr

/-- The description sequence stored by `Schema.__init__`: the argument when
one is supplied, otherwise the fresh list `[None] * len(names)`. -/
def defaultDescs (names : List String)
    (descriptions : Option (PySeq (Option String))) : PySeq (Option String) :=
  match descriptions with
  | none => .list (List.replicate names.length none)
  | some d => d

/-- `Schema.__init__(names, types, descriptions=None)`: normalise `names`,
map `dtype` over `types`, default the descriptions, build `_name_locs`, and
raise `IntegrityError` when the dict collapsed duplicate names. -/
def mkSchema (names : List String) (types : List DType)
    (descriptions : Option (PySeq (Option String))) : Except PyErr Schema :=
  let types' := types.map dtype
  let descs := defaultDescs names descriptions
  if (nameLocs names).length < names.length then
    .error .integrityError
  else
    .ok ⟨names, types', descs⟩

/-- `Schema.__contains__`: membership in `_name_locs`. -/
def Schema.contains (S : Schema) (n : String) : Bool :=
  (dictGet (nameLocs S.names) n).isSome

/-- `Schema.__getitem__(name)`: looks `name` up in `_name_locs` (a missing
name raises `KeyError`), indexes `types` and `descriptions` at the found
position (an out-of-range position raises `IndexError`), builds the
type/description dict into a local variable — and then falls off the end of
the method, returning Python `None`.  The `.ok none` result models that
returned `None`; the computed pair is discarded by the source. -/
def Schema.getitem (S : Schema) (n : String) :
    Except PyErr (Option (DType × Option String)) :=
  match dictGet (nameLocs S.names) n with
  | none => .error (.keyError n)
  | some i =>
    match S.types[i]?, S.descriptions.elems[i]? with
    | some _, some _ => .ok none
    | _, _ => .error .indexError

/-- Truncating three-way zip, as Python `zip(a, b, c)`. -/
def zip3 {α β γ : Type} : List α → List β → List γ → List (α × β × γ)
  | a :: as, b :: bs, c :: cs => (a, b, c) :: zip3 as bs cs
  | _, _, _ => []

/-- `Schema.items()`: `zip(self.names, self.types, self.descriptions)`. -/
def Schema.items (S : Schema) : List (String × DType × Option String) :=
  zip3 S.names S.types S.descriptions.elems

/-- `Schema.equals`: Python `==` on the three stored attributes.  `names`
and `types` are always lists, so their comparison is element-wise; the
descriptions comparison is Python `==` on possibly mixed sequence kinds. -/
def Schema.equals (a b : Schema) : Bool :=
  decide (a.names = b.names) && decide (a.types = b.types)
    && PySeq.pyEq a.descriptions b.descriptions

/-- The content of `Schema.__hash__`:
`hash((type(self), tuple(names), tuple(types), tuple(descriptions)))`.
The class component is constant and `tuple(...)` keeps only the elements, so
the hash input is determined by this triple of element lists. -/
def Schema.hashKey (S : Schema) :
    List String × List DType × List (Option String) :=
  (S.names, S.types, S.descriptions.elems)

/-- `Schema.__gt__`: `set(self.items()) > set(other.items())`, the proper
superset relation on the two Python sets of triples. -/
def Schema.gt (a b : Schema) : Bool :=
  decide (b.items.toFinset ⊂ a.items.toFinset)

/-- `Schema.__ge__`: `set(self.items()) >= set(other.items())`, the superset
relation on the two Python sets of triples. -/
def Schema.ge (a b : Schema) : Bool :=
  decide (b.items.toFinset ⊆ a.items.toFinset)

/-- `Schema.append`: evaluates the three concatenations (the descriptions
concatenation raises `TypeError` on a list/tuple mix, before the constructor
runs) and re-runs the constructor, which re-checks the duplicate-name
invariant. -/
def Schema.append (a b : Schema) : Except PyErr Schema :=
  match pyConcat a.descriptions b.descriptions with
  | .error e => .error e
  | .ok d => mkSchema (a.names ++ b.names) (a.types ++ b.types) (some d)

/-- `Schema.delete(names_to_delete)`: first pass raises `KeyError` on the
first requested name not in the schema; second pass rebuilds the three
sequences from the zipped triples, skipping deleted names, and constructs a
new schema (descriptions become a fresh Python list). -/
def Schema.delete (S : Schema) (D : List String) : Except PyErr Schema :=
  match D.find? (fun n => !S.contains n) with
  | some n => .error (.keyError n)
  | none =>
    let kept := S.items.filter (fun t => !D.contains t.1)
    mkSchema (kept.map (fun t => t.1)) (kept.map (fun t => t.2.1))
      (some (.list (kept.map (fun t => t.2.2))))

/-- `Schema.name_at_position(i)`: bounds check against `[0, len(names) - 1]`
with a `ValueError` stating the bounds, then `self.names[i]` (the
`IndexError` branch models Python indexing; the in-range branch never
reaches it). -/
def Schema.name_at_position (S : Schema) (i : Int) : Except PyErr String :=
  let upper : Int := (S.names.length : Int) - 1
  if 0 ≤ i ∧ i ≤ upper then
    match S.names[i.toNat]? with
    | some n => .ok n
    | none => .error .indexError
  else
    .error (.valueError
      ("Column index must be between 0 and " ++ toString upper
        ++ ", inclusive"))

/-- An element of the sequence accepted by `Schema.from_tuples`: a
`(name, type)` pair or a `(name, type, description)` triple. -/
inductive TupEntry where
  | pair (n : String) (t : DType)
  | triple (n : String) (t : DType) (d : Option String)
deriving DecidableEq, Repr

/-- The padding step of `from_tuples`: `v + (None,) if len(v) == 2 else v`. -/
def TupEntry.pad : TupEntry → String × DType × Option String
  | .pair n t => (n, t, none)
  | .triple n t d => (n, t, d)

/-- `Schema.from_tuples(values)`: pad 2-tuples with `None`, then
`zip(*values)` — which yields three Python *tuples* for a non-empty input
and the three literal empty *lists* `([], [], [])` for an empty one — and
construct.  The constructor normalises names and types back to lists but
stores the descriptions tuple as a tuple. -/
def Schema.from_tuples (values : List TupEntry) : Except PyErr Schema :=
  let padded := values.map TupEntry.pad
  match padded with
  | [] => mkSchema [] [] (some (.list []))
  | _ => mkSchema (padded.map (fun t => t.1)) (padded.map (fun t => t.2.1))
      (some (.tup (padded.map (fun t => t.2.2))))

/-- `Schema.from_dict(d)`: `Schema(*zip(*d.items()))` — names and types from
the mapping in iteration order, descriptions defaulted by the constructor.
The mapping is modelled as its item list. -/
def Schema.from_dict (m : List (String × DType)) : Except PyErr Schema :=
  mkSchema (m.map (fun p => p.1)) (m.map (fun p => p.2)) none

/-- The input shapes distinguished by the registered strategies of the
`schema` dispatcher, plus a representative unregistered shape (a bare
integer). -/
inductive SchemaInput where
  | schemaArg (s : Schema)
  | mappingArg (m : List (String × DType))
  | pairsArg (l : List TupEntry)
  | namesTypes (names : List String) (types : List DType)
  | namesTypesDescs (names : List String) (types : List DType)
      (descs : PySeq (Option String))
  | intArg (n : Int)
deriving Repr

/-- Modelled from the spec: the `multipledispatch.Dispatcher` resolution
engine is an external dependency outside this fragment; following the spec's
tagged-union design note, dispatch is an exhaustive match on the input shape
in the registered priority order (exact `Schema` match, then mapping, then
pair sequence, then two or three sequences), with the registered strategy
bodies taken from the source registrations.  A shape matching no registered
strategy fails with a dispatch error. -/
def schemaDispatch : SchemaInput → Except PyErr Schema
  | .schemaArg s => .ok s
  | .mappingArg m => Schema.from_dict m
  | .pairsArg l => Schema.from_tuples l
  | .namesTypes ns ts => mkSchema ns ts none
  | .namesTypesDescs ns ts ds => mkSchema ns ts (some ds)
  | .intArg _ => .error .dispatchError

/-- The positional-alignment invariant of the spec's data model:
`len(names) == len(types) == len(descriptions)`. -/
def Schema.aligned (S : Schema) : Prop :=
  S.names.length = S.types.length ∧
    S.names.length = S.descriptions.elems.length

instance (S : Schema) : Decidable S.aligned := by
  unfold Schema.aligned
  infer_instance

/-- Well-formedness per the spec's data model: pairwise-distinct names and
positional alignment. -/
def Schema.wf (S : Schema) : Prop :=
  S.names.Nodup ∧ S.aligned

instance (S : Schema) : Decidable S.wf := by
  unfold Schema.wf
  infer_instance

deriving instance DecidableEq for Except

/-! ### Helper lemmas about the `_name_locs` dict model -/

/-- The key list of the modelled dict. -/
def dictKeys (d : List (String × Nat)) : List String :=
  d.map Prod.fst

lemma exists_fst_beq_iff (d : List (String × Nat)) (k : String) :
    (∃ p ∈ d, (p.1 == k) = true) ↔ k ∈ dictKeys d := by
  simp [dictKeys, List.mem_map, beq_iff_eq]

lemma any_fst_beq (d : List (String × Nat)) (k : String) :
    (d.any fun p => p.1 == k) = true ↔ k ∈ dictKeys d := by
  rw [List.any_eq_true]
  exact exists_fst_beq_iff d k

lemma dictKeys_dictInsert (d : List (String × Nat)) (k : String) (v : Nat) :
    dictKeys (dictInsert d k v)
      = if k ∈ dictKeys d then dictKeys d else dictKeys d ++ [k] := by
  unfold dictInsert
  by_cases h : k ∈ dictKeys d
  · rw [if_pos ((any_fst_beq d k).2 h), if_pos h]
    unfold dictKeys
    rw [List.map_map]
    apply List.map_congr_left
    intro p _
    by_cases hb : (p.1 == k) = true
    · simp only [Function.comp_apply, if_pos hb]
      exact (beq_iff_eq.1 hb).symm
    · simp only [Function.comp_apply, if_neg hb]
  · rw [if_neg (by rw [any_fst_beq]; exact h), if_neg h]
    unfold dictKeys
    rw [List.map_append]
    rfl

lemma length_eq_dictKeys_length (d : List (String × Nat)) :
    d.length = (dictKeys d).length := by
  unfold dictKeys
  rw [List.length_map]

lemma buildLocs_spec (ns : List String) :
    ∀ (i : Nat) (d : List (String × Nat)), (dictKeys d).Nodup →
      (dictKeys (buildLocs ns i d)).Nodup ∧
        (dictKeys (buildLocs ns i d)).toFinset
          = (dictKeys d).toFinset ∪ ns.toFinset := by
  induction ns with
  | nil =>
    intro i d hd
    simp [buildLocs, hd]
  | cons n ns ih =>
    intro i d hd
    simp only [buildLocs]
    have hkeys := dictKeys_dictInsert d n i
    have hnodup : (dictKeys (dictInsert d n i)).Nodup := by
      rw [hkeys]
      split_ifs with h
      · exact hd
      · rw [List.nodup_append]
        exact ⟨hd, List.nodup_singleton n, by
          intro x hx hx'
          rw [List.mem_singleton] at hx'
          exact h (hx' ▸ hx)⟩
    have hfin : (dictKeys (dictInsert d n i)).toFinset
        = insert n (dictKeys d).toFinset := by
      rw [hkeys]
      split_ifs with h
      · exact (Finset.insert_eq_self.2 (List.mem_toFinset.2 h)).symm
      · rw [List.toFinset_append]
        ext x
        simp [or_comm]
    obtain ⟨h1, h2⟩ := ih (i + 1) (dictInsert d n i) hnodup
    refine ⟨h1, ?_⟩
    rw [h2, hfin, List.toFinset_cons]
    ext x
    simp [or_comm, or_left_comm]

lemma nameLocs_length (ns : List String) :
    (nameLocs ns).length = ns.toFinset.card := by
  have h := buildLocs_spec ns 0 [] (by simp [dictKeys])
  calc (nameLocs ns).length
      = (dictKeys (nameLocs ns)).length := length_eq_dictKeys_length _
    _ = (dictKeys (nameLocs ns)).toFinset.card :=
        (List.toFinset_card_of_nodup h.1).symm
    _ = ns.toFinset.card := by
        rw [show nameLocs ns = buildLocs ns 0 [] from rfl, h.2]
        simp [dictKeys]

lemma toFinset_card_lt_iff (ns : List String) :
    ns.toFinset.card < ns.length ↔ ¬ ns.Nodup := by
  rw [List.card_toFinset]
  constructor
  · intro h hc
    rw [List.dedup_eq_self.2 hc] at h
    exact lt_irrefl _ h
  · intro h
    have hle : ns.dedup.length ≤ ns.length := (List.dedup_sublist ns).length_le
    rcases lt_or_eq_of_le hle with h' | h'
    · exact h'
    · exact absurd (List.dedup_eq_self.1 ((List.dedup_sublist ns).eq_of_length h')) h

lemma mkSchema_ok {names : List String} (types : List DType)
    (descs : Option (PySeq (Option String))) (h : names.Nodup) :
    mkSchema names types descs
      = .ok ⟨names, types.map dtype, defaultDescs names descs⟩ := by
  unfold mkSchema
  rw [if_neg]
  rw [nameLocs_length, toFinset_card_lt_iff]
  exact not_not_intro h

lemma mkSchema_integrity {names : List String} (types : List DType)
    (descs : Option (PySeq (Option String))) (h : ¬ names.Nodup) :
    mkSchema names types descs = .error .integrityError := by
  unfold mkSchema
  rw [if_pos]
  rw [nameLocs_length, toFinset_card_lt_iff]
  exact h

lemma nameLocs_mem (ns : List String) (k : String) :
    (dictGet (nameLocs ns) k).isSome = true ↔ k ∈ ns := by
  unfold dictGet
  rw [Option.isSome_map', List.find?_isSome, exists_fst_beq_iff]
  have h := buildLocs_spec ns 0 [] (by simp [dictKeys])
  rw [← List.mem_toFinset, show nameLocs ns = buildLocs ns 0 [] from rfl, h.2]
  simp [dictKeys]

lemma contains_iff (S : Schema) (n : String) :
    S.contains n = true ↔ n ∈ S.names := by
  unfold Schema.contains
  exact nameLocs_mem S.names n

/-! ### Helper lemmas about `zip3` and `pyConcat` -/

lemma zip3_map_fst {α β γ : Type} :
    ∀ (as : List α) (bs : List β) (cs : List γ),
      as.length = bs.length → as.length = cs.length →
      (zip3 as bs cs).map (fun t => t.1) = as := by
  intro as
  induction as with
  | nil => intro bs cs _ _; rfl
  | cons a as ih =>
    intro bs cs h1 h2
    cases bs with
    | nil => exact absurd h1 (by simp)
    | cons b bs =>
      cases cs with
      | nil => exact absurd h2 (by simp)
      | cons c cs =>
        simp only [zip3, List.map_cons]
        rw [ih bs cs (by simpa using h1) (by simpa using h2)]

lemma zip3_map_snd {α β γ : Type} :
    ∀ (as : List α) (bs : List β) (cs : List γ),
      as.length = bs.length → as.length = cs.length →
      (zip3 as bs cs).map (fun t => t.2.1) = bs := by
  intro as
  induction as with
  | nil =>
    intro bs cs h1 _
    cases bs with
    | nil => rfl
    | cons b bs => exact absurd h1 (by simp)
  | cons a as ih =>
    intro bs cs h1 h2
    cases bs with
    | nil => exact absurd h1 (by simp)
    | cons b bs =>
      cases cs with
      | nil => exact absurd h2 (by simp)
      | cons c cs =>
        simp only [zip3, List.map_cons]
        rw [ih bs cs (by simpa using h1) (by simpa using h2)]

lemma zip3_map_thd {α β γ : Type} :
    ∀ (as : List α) (bs : List β) (cs : List γ),
      as.length = bs.length → as.length = cs.length →
      (zip3 as bs cs).map (fun t => t.2.2) = cs := by
  intro as
  induction as with
  | nil =>
    intro bs cs _ h2
    cases cs with
    | nil => rfl
    | cons c cs => exact absurd h2 (by simp)
  | cons a as ih =>
    intro bs cs h1 h2
    cases bs with
    | nil => exact absurd h1 (by simp)
    | cons b bs =>
      cases cs with
      | nil => exact absurd h2 (by simp)
      | cons c cs =>
        simp only [zip3, List.map_cons]
        rw [ih bs cs (by simpa using h1) (by simpa using h2)]

lemma zip3_map_self {α β γ : Type} :
    ∀ (l : List (α × β × γ)),
      zip3 (l.map (fun t => t.1)) (l.map (fun t => t.2.1))
        (l.map (fun t => t.2.2)) = l := by
  intro l
  induction l with
  | nil => rfl
  | cons t l ih =>
    obtain ⟨a, b, c⟩ := t
    simp only [List.map_cons, zip3]
    rw [ih]

lemma pyConcat_sameKind {α : Type} (a b : PySeq α)
    (h : a.sameKind b = true) :
    ∃ d, pyConcat a b = .ok d ∧ d.elems = a.elems ++ b.elems := by
  cases a <;> cases b <;> first
    | exact ⟨_, rfl, rfl⟩
    | exact absurd h (by simp [PySeq.sameKind])

lemma pyConcat_mixed {α : Type} (a b : PySeq α)
    (h : a.sameKind b = false) :
    pyConcat a b = .error .typeError := by
  cases a <;> cases b <;> first
    | rfl
    | exact absurd h (by simp [PySeq.sameKind])

lemma mkSchema_ok_inv {ns : List String} {ts : List DType}
    {ds : Option (PySeq (Option String))} {S' : Schema}
    (h : mkSchema ns ts ds = .ok S') :
    S' = ⟨ns, ts.map dtype, defaultDescs ns ds⟩ ∧ ns.Nodup := by
  unfold mkSchema at h
  split at h
  · exact absurd h (by simp)
  · rename_i hc
    rw [nameLocs_length, toFinset_card_lt_iff, not_not] at hc
    injection h with h'
    exact ⟨h'.symm, hc⟩

lemma pyConcat_ok_elems {α : Type} {a b d : PySeq α}
    (h : pyConcat a b = .ok d) : d.elems = a.elems ++ b.elems := by
  cases a <;> cases b <;> simp [pyConcat] at h <;> subst h <;> rfl

lemma map_dtype_id (l : List DType) : l.map dtype = l :=
  List.map_id l

/-! ### Claims -/

/-- C1: the claim states that item access by name returns the
(type, description) pair of the column and fails with `KeyError` for an
absent name.  The source computes the pair into a local dict but has no
return statement, so Python returns `None`: on the one-column schema
`Schema(["a"], [int8], ["d"])`, `S["a"]` evaluates to `None` (modelled as
`.ok none`), not to the pair `(int8, "d")`; the `KeyError` branch for an
absent name does hold.  This demonstrates the code bug at the concrete
failing input. -/
theorem c1_getitem_returns_none :
    mkSchema ["a"] [.int8] (some (.list [some "d"]))
      = .ok ⟨["a"], [.int8], .list [some "d"]⟩ ∧
    Schema.getitem ⟨["a"], [.int8], .list [some "d"]⟩ "a" = .ok none ∧
    (∀ p : DType × Option String,
      Schema.getitem ⟨["a"], [.int8], .list [some "d"]⟩ "a" ≠ .ok (some p)) ∧
    Schema.getitem ⟨["a"], [.int8], .list [some "d"]⟩ "zz"
      = .error (.keyError "zz") := by
  refine ⟨by decide, by decide, ?_, by decide⟩
  intro p h
  rw [show Schema.getitem ⟨["a"], [.int8], .list [some "d"]⟩ "a" = .ok none
    from by decide] at h
  exact Option.noConfusion (Except.ok.inj h)

/-- C2 counterexample: constructing with one name and two types succeeds and
yields a schema with `len(names) = 1 ≠ 2 = len(types)` — the alignment
invariant is not checked at construction. -/
theorem c2_cex_no_alignment_check :
    mkSchema ["a"] [.int8, .int16] none
      = .ok ⟨["a"], [.int8, .int16], .list [none]⟩ ∧
    ¬ (Schema.aligned ⟨["a"], [.int8, .int16], .list [none]⟩) := by
  constructor
  · decide
  · intro h
    exact absurd h.1 (by decide)

/-- C2 (amended): every schema produced by `from_tuples`, `from_dict` or
`delete` satisfies `len(names) = len(types) = len(descriptions)`, and
`append` of two aligned schemas preserves the invariant; the constructor
itself does not check it (see the counterexample). -/
theorem c2_alignment_of_derivations :
    (∀ (vs : List TupEntry) (S' : Schema),
      Schema.from_tuples vs = .ok S' → S'.aligned) ∧
    (∀ (m : List (String × DType)) (S' : Schema),
      Schema.from_dict m = .ok S' → S'.aligned) ∧
    (∀ (S : Schema) (D : List String) (S' : Schema),
      S.delete D = .ok S' → S'.aligned) ∧
    (∀ A B S' : Schema,
      A.aligned → B.aligned → A.append B = .ok S' → S'.aligned) := by
  refine ⟨?_, ?_, ?_, ?_⟩
  · intro vs S' h
    simp only [Schema.from_tuples] at h
    split at h
    · rw [(mkSchema_ok_inv h).1]
      exact ⟨rfl, rfl⟩
    · rw [(mkSchema_ok_inv h).1]
      constructor
      · simp [List.length_map]
      · simp [defaultDescs, PySeq.elems, List.length_map]
  · intro m S' h
    unfold Schema.from_dict at h
    rw [(mkSchema_ok_inv h).1]
    constructor
    · simp [List.length_map]
    · simp [defaultDescs, PySeq.elems, List.length_map]
  · intro S D S' h
    unfold Schema.delete at h
    split at h
    · exact absurd h (by simp)
    · rw [(mkSchema_ok_inv h).1]
      constructor
      · simp [List.length_map]
      · simp [defaultDescs, PySeq.elems, List.length_map]
  · intro A B S' hA hB h
    unfold Schema.append at h
    split at h
    · exact absurd h (by simp)
    · rename_i d hd
      rw [(mkSchema_ok_inv h).1]
      constructor
      · simp [List.length_map, List.length_append, hA.1, hB.1]
      · have he := pyConcat_ok_elems hd
        show (A.names ++ B.names).length
          = (defaultDescs (A.names ++ B.names) (some d)).elems.length
        rw [show defaultDescs (A.names ++ B.names) (some d) = d from rfl,
          he, List.length_append, List.length_append, hA.2, hB.2]

/-- C2 witness: the amended claim applied to a concrete derivation,
`from_tuples [("a", int8)]`. -/
theorem c2_alignment_witness :
    Schema.aligned ⟨["a"], [.int8], .tup [none]⟩ :=
  c2_alignment_of_derivations.1 [.pair "a" .int8]
    ⟨["a"], [.int8], .tup [none]⟩ (by decide)

/-- C3 counterexample: the claim says appending two schemas that share a
column name fails with `IntegrityError`.  But when one schema stores its
descriptions as a tuple (as `from_tuples` does) and the other as a list,
Python evaluates `self.descriptions + schema.descriptions` before the
constructor runs, and tuple-plus-list raises `TypeError` — so the shared
name "a" here produces `TypeError`, not `IntegrityError`. -/
theorem c3_cex_append_shared_name :
    Schema.from_tuples [.triple "a" .int8 (some "d")]
      = .ok ⟨["a"], [.int8], .tup [some "d"]⟩ ∧
    mkSchema ["a"] [.int8] none = .ok ⟨["a"], [.int8], .list [none]⟩ ∧
    Schema.append ⟨["a"], [.int8], .tup [some "d"]⟩
      ⟨["a"], [.int8], .list [none]⟩ = .error .typeError ∧
    PyErr.typeError ≠ PyErr.integrityError := by
  refine ⟨by decide, by decide, by decide, by decide⟩

/-- C3 (amended): direct construction with duplicate names always fails
with `IntegrityError` regardless of the types and descriptions supplied, and
with pairwise-distinct names it never raises; `append` of two schemas
sharing a column name fails with `IntegrityError` provided the two
description sequences are stored as the same container kind (a list/tuple
mix fails earlier with `TypeError`, see the counterexample). -/
theorem c3_duplicate_names_integrity :
    (∀ (ns : List String) (ts : List DType)
        (ds : Option (PySeq (Option String))),
      (¬ ns.Nodup → mkSchema ns ts ds = .error .integrityError) ∧
      (ns.Nodup → ∃ S, mkSchema ns ts ds = .ok S)) ∧
    (∀ A B : Schema, A.descriptions.sameKind B.descriptions = true →
      (∃ n, n ∈ A.names ∧ n ∈ B.names) →
      A.append B = .error .integrityError) := by
  constructor
  · intro ns ts ds
    exact ⟨fun h => mkSchema_integrity ts ds h,
      fun h => ⟨_, mkSchema_ok ts ds h⟩⟩
  · rintro A B hk ⟨n, hnA, hnB⟩
    unfold Schema.append
    obtain ⟨d, hd, -⟩ := pyConcat_sameKind _ _ hk
    rw [hd]
    apply mkSchema_integrity
    intro hnodup
    rw [List.nodup_append] at hnodup
    exact hnodup.2.2 hnA hnB

/-- C3 witness: duplicate names at direct construction, and a shared name
at append of two list-kind schemas, both produce `IntegrityError`. -/
theorem c3_duplicate_names_witness :
    mkSchema ["a", "a"] [.int8, .int16] none = .error .integrityError ∧
    Schema.append ⟨["a"], [.int8], .list [some "d"]⟩
      ⟨["a"], [.int16], .list [none]⟩ = .error .integrityError :=
  ⟨(c3_duplicate_names_integrity.1 ["a", "a"] [.int8, .int16] none).1
      (by decide),
    c3_duplicate_names_integrity.2 ⟨["a"], [.int8], .list [some "d"]⟩
      ⟨["a"], [.int16], .list [none]⟩ (by decide)
      ⟨"a", by decide, by decide⟩⟩

/-- C4: `delete` is all-or-nothing.  For a schema satisfying the spec's
data-model invariants (unique names, aligned lengths): if some requested
name is absent, `delete` fails with a `KeyError` naming a missing key and
produces no schema; if all requested names are present, it returns a new
schema whose columns are exactly those of `S` not in `D`, in order, with
their types and descriptions. -/
theorem c4_delete_all_or_nothing :
    ∀ (S : Schema) (D : List String), S.wf →
      ((∃ n ∈ D, S.contains n = false) →
        ∃ n, S.delete D = .error (.keyError n) ∧ n ∈ D ∧
          S.contains n = false) ∧
      ((∀ n ∈ D, S.contains n = true) →
        ∃ S', S.delete D = .ok S' ∧
          S'.names = S.names.filter (fun n => !D.contains n) ∧
          S'.items = S.items.filter (fun t => !D.contains t.1)) := by
  intro S D hwf
  unfold Schema.wf Schema.aligned at hwf
  obtain ⟨hnd, hal1, hal2⟩ := hwf
  constructor
  · rintro ⟨n, hnD, hnc⟩
    unfold Schema.delete
    cases hfind : D.find? (fun n => !S.contains n) with
    | none =>
      rw [List.find?_eq_none] at hfind
      have := hfind n hnD
      simp [hnc] at this
    | some m =>
      have hm1 := List.find?_some hfind
      have hm2 := List.mem_of_find?_eq_some hfind
      exact ⟨m, rfl, hm2, by simpa using hm1⟩
  · intro hall
    unfold Schema.delete
    have hfind : D.find? (fun n => !S.contains n) = none := by
      rw [List.find?_eq_none]
      intro x hx
      simp [hall x hx]
    rw [hfind]
    have hfst : (S.items.filter (fun t => !D.contains t.1)).map
        (fun t : String × DType × Option String => t.1)
        = S.names.filter (fun n => !D.contains n) := by
      have hmf := List.filter_map
        (p := fun n : String => !D.contains n)
        (fun t : String × DType × Option String => t.1)
        S.items
      have hcomp : ((fun n : String => !D.contains n) ∘
          (fun t : String × DType × Option String => t.1))
          = fun t : String × DType × Option String => !D.contains t.1 := rfl
      rw [hcomp] at hmf
      rw [← hmf]
      unfold Schema.items
      rw [zip3_map_fst S.names S.types S.descriptions.elems hal1 hal2]
    have hnodup' : ((S.items.filter (fun t => !D.contains t.1)).map
        (fun t : String × DType × Option String => t.1)).Nodup := by
      rw [hfst]
      exact hnd.filter _
    refine ⟨_, mkSchema_ok _ _ hnodup', ?_, ?_⟩
    · exact hfst
    · show zip3
          ((S.items.filter (fun t => !D.contains t.1)).map (fun t => t.1))
          (((S.items.filter (fun t => !D.contains t.1)).map
            (fun t => t.2.1)).map dtype)
          ((S.items.filter (fun t => !D.contains t.1)).map (fun t => t.2.2))
        = S.items.filter (fun t => !D.contains t.1)
      rw [map_dtype_id]
      exact zip3_map_self _

/-- C4 witness: deleting `{"b"}` from a three-column schema removes exactly
that column. -/
theorem c4_delete_witness :
    ∃ S', Schema.delete
        ⟨["a", "b", "c"], [.int8, .int16, .string],
          .list [none, some "x", none]⟩ ["b"] = .ok S' ∧
      S'.names = (["a", "b", "c"] : List String).filter
        (fun n => !(["b"] : List String).contains n) ∧
      S'.items = (Schema.items ⟨["a", "b", "c"], [.int8, .int16, .string],
          .list [none, some "x", none]⟩).filter
        (fun t => !(["b"] : List String).contains t.1) :=
  (c4_delete_all_or_nothing
    ⟨["a", "b", "c"], [.int8, .int16, .string],
      .list [none, some "x", none]⟩ ["b"] (by decide)).2 (by decide)

/-- C5: the claim states that two independently constructed schemas with
identical (names, types, descriptions) are equal regardless of construction
path.  The code stores descriptions from `from_tuples` as a Python tuple
but from direct construction as a list; `equals` compares with Python `==`,
which distinguishes tuple from list, so the two element-wise identical
schemas below compare unequal in both directions — even though their hash
inputs agree (the hash tuples the descriptions).  This demonstrates the
code bug at the concrete failing input. -/
theorem c5_equals_distinguishes_kinds :
    Schema.from_tuples [.triple "a" .int8 (some "d")]
      = .ok ⟨["a"], [.int8], .tup [some "d"]⟩ ∧
    mkSchema ["a"] [.int8] (some (.list [some "d"]))
      = .ok ⟨["a"], [.int8], .list [some "d"]⟩ ∧
    (⟨["a"], [.int8], .tup [some "d"]⟩ : Schema).names
      = (⟨["a"], [.int8], .list [some "d"]⟩ : Schema).names ∧
    (⟨["a"], [.int8], .tup [some "d"]⟩ : Schema).types
      = (⟨["a"], [.int8], .list [some "d"]⟩ : Schema).types ∧
    (⟨["a"], [.int8], .tup [some "d"]⟩ : Schema).descriptions.elems
      = (⟨["a"], [.int8], .list [some "d"]⟩ : Schema).descriptions.elems ∧
    Schema.equals ⟨["a"], [.int8], .tup [some "d"]⟩
      ⟨["a"], [.int8], .list [some "d"]⟩ = false ∧
    Schema.equals ⟨["a"], [.int8], .list [some "d"]⟩
      ⟨["a"], [.int8], .tup [some "d"]⟩ = false ∧
    Schema.hashKey ⟨["a"], [.int8], .tup [some "d"]⟩
      = Schema.hashKey ⟨["a"], [.int8], .list [some "d"]⟩ := by
  decide

/-- C6: `>` is the strict-superset relation on the sets of
(name, type, description) triples, `>=` the non-strict one, and `>` is
irreflexive. -/
theorem c6_superset_ordering :
    ∀ A B : Schema,
      (A.gt B = true ↔
        (∀ t ∈ B.items, t ∈ A.items) ∧ ∃ t ∈ A.items, t ∉ B.items) ∧
      (A.ge B = true ↔ ∀ t ∈ B.items, t ∈ A.items) ∧
      A.gt A = false := by
  intro A B
  refine ⟨?_, ?_, ?_⟩
  · unfold Schema.gt
    rw [decide_eq_true_iff, ssubset_iff_subset_not_subset, Finset.not_subset]
    constructor
    · rintro ⟨h1, x, hx, hx'⟩
      exact ⟨fun t ht => List.mem_toFinset.1 (h1 (List.mem_toFinset.2 ht)),
        x, List.mem_toFinset.1 hx, fun hc => hx' (List.mem_toFinset.2 hc)⟩
    · rintro ⟨h1, x, hx, hx'⟩
      exact ⟨fun t ht => List.mem_toFinset.2 (h1 t (List.mem_toFinset.1 ht)),
        x, List.mem_toFinset.2 hx, fun hc => hx' (List.mem_toFinset.1 hc)⟩
  · unfold Schema.ge
    rw [decide_eq_true_iff]
    constructor
    · intro h t ht
      exact List.mem_toFinset.1 (h (List.mem_toFinset.2 ht))
    · intro h x hx
      exact List.mem_toFinset.2 (h x (List.mem_toFinset.1 hx))
  · unfold Schema.gt
    exact decide_eq_false (ssubset_irrefl _)

/-- C7 counterexample: the claim says that for any two schemas with no
column name in common, `append` returns the concatenation schema.  Here the
two schemas have disjoint names ("a" vs "b"), but one stores its
descriptions as a tuple (it was built by `from_tuples`) and the other as a
list, so `self.descriptions + schema.descriptions` raises `TypeError` and
no schema is returned. -/
theorem c7_cex_append_mixed_kinds :
    Schema.from_tuples [.triple "a" .int8 (some "d")]
      = .ok ⟨["a"], [.int8], .tup [some "d"]⟩ ∧
    mkSchema ["b"] [.int16] none = .ok ⟨["b"], [.int16], .list [none]⟩ ∧
    (∀ n ∈ (⟨["a"], [.int8], .tup [some "d"]⟩ : Schema).names,
      n ∉ (⟨["b"], [.int16], .list [none]⟩ : Schema).names) ∧
    Schema.append ⟨["a"], [.int8], .tup [some "d"]⟩
      ⟨["b"], [.int16], .list [none]⟩ = .error .typeError := by
  refine ⟨by decide, by decide, by decide, by decide⟩

/-- C7 (amended): for any two schemas with pairwise-distinct names each, no
column name in common, and descriptions stored as the same container kind,
`append` returns a new schema whose names, types, and descriptions are the
concatenations of the two inputs' sequences, in order. -/
theorem c7_append_concatenates :
    ∀ A B : Schema, A.names.Nodup → B.names.Nodup →
      (∀ n ∈ A.names, n ∉ B.names) →
      A.descriptions.sameKind B.descriptions = true →
      ∃ S', A.append B = .ok S' ∧
        S'.names = A.names ++ B.names ∧
        S'.types = A.types ++ B.types ∧
        S'.descriptions.elems
          = A.descriptions.elems ++ B.descriptions.elems := by
  intro A B hA hB hdisj hk
  unfold Schema.append
  obtain ⟨d, hd, he⟩ := pyConcat_sameKind _ _ hk
  rw [hd]
  have hnodup : (A.names ++ B.names).Nodup := by
    rw [List.nodup_append]
    exact ⟨hA, hB, fun a ha hb => hdisj a ha hb⟩
  refine ⟨_, mkSchema_ok _ _ hnodup, rfl, ?_, ?_⟩
  · show (A.types ++ B.types).map dtype = A.types ++ B.types
    exact map_dtype_id _
  · show (defaultDescs (A.names ++ B.names) (some d)).elems = _
    rw [show defaultDescs (A.names ++ B.names) (some d) = d from rfl]
    exact he

/-- C7 witness: appending a two-column schema and a one-column schema with
fresh names concatenates the sequences, names `["a","b"] ++ ["c"]`. -/
theorem c7_append_witness :
    ∃ S', Schema.append ⟨["a", "b"], [.int8, .int16], .list [some "d", none]⟩
        ⟨["c"], [.string], .list [none]⟩ = .ok S' ∧
      S'.names = ["a", "b"] ++ ["c"] ∧
      S'.types = [DType.int8, DType.int16] ++ [DType.string] ∧
      S'.descriptions.elems = [some "d", none] ++ [none] :=
  c7_append_concatenates
    ⟨["a", "b"], [.int8, .int16], .list [some "d", none]⟩
    ⟨["c"], [.string], .list [none]⟩
    (by decide) (by decide) (by decide) (by decide)

/-- C8: `name_at_position(i)` returns the name at position `i` for
`0 ≤ i ≤ N - 1` (and the in-range branch reads inside the names sequence),
and for any `i` outside that range fails with a `ValueError` whose message
states the valid bounds. -/
theorem c8_name_at_position_bounds :
    ∀ (S : Schema) (i : Int),
      (0 ≤ i → i ≤ (S.names.length : Int) - 1 →
        ∃ h : i.toNat < S.names.length,
          S.name_at_position i = .ok (S.names.get ⟨i.toNat, h⟩)) ∧
      (i < 0 ∨ (S.names.length : Int) - 1 < i →
        S.name_at_position i = .error (.valueError
          ("Column index must be between 0 and "
            ++ toString ((S.names.length : Int) - 1) ++ ", inclusive"))) := by
  intro S i
  constructor
  · intro h0 hub
    have hlt : i.toNat < S.names.length := by
      rw [Int.toNat_lt h0]
      omega
    refine ⟨hlt, ?_⟩
    unfold Schema.name_at_position
    rw [if_pos ⟨h0, hub⟩, List.getElem?_eq_getElem hlt]
    rfl
  · intro hout
    unfold Schema.name_at_position
    rw [if_neg]
    rintro ⟨h1, h2⟩
    rcases hout with h | h
    · omega
    · omega

/-- C8 witness: on a three-column schema, position 1 yields the second name
and positions -1 and 3 fail with the bounds-stating message. -/
theorem c8_name_at_position_witness :
    (∃ h : (1 : Int).toNat
        < (⟨["a", "b", "c"], [.int8, .int16, .string],
            .list [none, none, none]⟩ : Schema).names.length,
      Schema.name_at_position
        ⟨["a", "b", "c"], [.int8, .int16, .string], .list [none, none, none]⟩
        1 = .ok ((⟨["a", "b", "c"], [.int8, .int16, .string],
            .list [none, none, none]⟩ : Schema).names.get
          ⟨(1 : Int).toNat, h⟩)) ∧
    Schema.name_at_position
      ⟨["a", "b", "c"], [.int8, .int16, .string], .list [none, none, none]⟩
      (-1) = .error (.valueError
        ("Column index must be between 0 and "
          ++ toString (((⟨["a", "b", "c"], [.int8, .int16, .string],
              .list [none, none, none]⟩ : Schema).names.length : Int) - 1)
          ++ ", inclusive")) ∧
    Schema.name_at_position
      ⟨["a", "b", "c"], [.int8, .int16, .string], .list [none, none, none]⟩
      3 = .error (.valueError
        ("Column index must be between 0 and "
          ++ toString (((⟨["a", "b", "c"], [.int8, .int16, .string],
              .list [none, none, none]⟩ : Schema).names.length : Int) - 1)
          ++ ", inclusive")) :=
  ⟨(c8_name_at_position_bounds
      ⟨["a", "b", "c"], [.int8, .int16, .string], .list [none, none, none]⟩
      1).1 (by decide) (by decide),
   (c8_name_at_position_bounds
      ⟨["a", "b", "c"], [.int8, .int16, .string], .list [none, none, none]⟩
      (-1)).2 (Or.inl (by decide)),
   (c8_name_at_position_bounds
      ⟨["a", "b", "c"], [.int8, .int16, .string], .list [none, none, none]⟩
      3).2 (Or.inr (by decide))⟩

/-- C9: dispatcher selection — an existing `Schema` is returned unchanged,
a mapping goes through `from_dict`, and an input shape matching no
registered strategy (a bare integer) fails with a dispatch error. -/
theorem c9_dispatch_selection :
    ∀ (s : Schema) (m : List (String × DType)) (n : Int),
      schemaDispatch (.schemaArg s) = .ok s ∧
      schemaDispatch (.mappingArg m) = Schema.from_dict m ∧
      schemaDispatch (.intArg n) = .error .dispatchError :=
  fun _ _ _ => ⟨rfl, rfl, rfl⟩

/-- C10 counterexample: the claim quantifies over schemas built by any
construction path, including `from_tuples`.  A `from_tuples` schema stores
its descriptions as a tuple, while `delete` rebuilds them as a list, so
`delete(S, ∅)` returns a schema that `equals` reports unequal to `S` (in
both directions). -/
theorem c10_cex_from_tuples_delete :
    Schema.from_tuples [.triple "a" .int8 (some "d")]
      = .ok ⟨["a"], [.int8], .tup [some "d"]⟩ ∧
    Schema.delete ⟨["a"], [.int8], .tup [some "d"]⟩ []
      = .ok ⟨["a"], [.int8], .list [some "d"]⟩ ∧
    Schema.equals ⟨["a"], [.int8], .list [some "d"]⟩
      ⟨["a"], [.int8], .tup [some "d"]⟩ = false ∧
    Schema.equals ⟨["a"], [.int8], .tup [some "d"]⟩
      ⟨["a"], [.int8], .list [some "d"]⟩ = false := by
  refine ⟨by decide, by decide, by decide, by decide⟩

/-- C10 (amended): for every schema satisfying the spec's data-model
invariants whose descriptions are stored as a Python list, `delete` with the
empty set raises no error and returns a schema equal to the original under
`equals` (in both directions). -/
theorem c10_delete_empty_equal :
    ∀ S : Schema, S.wf → S.descriptions.isListKind = true →
      ∃ S', S.delete [] = .ok S' ∧
        S'.equals S = true ∧ S.equals S' = true := by
  intro S hwf hkind
  unfold Schema.wf Schema.aligned at hwf
  obtain ⟨hnd, hal1, hal2⟩ := hwf
  obtain ⟨l, hD⟩ : ∃ l, S.descriptions = .list l := by
    cases hS : S.descriptions with
    | list l => exact ⟨l, rfl⟩
    | tup l => rw [hS] at hkind; exact absurd hkind (by simp [PySeq.isListKind])
  have hfilter : S.items.filter (fun t => !List.contains [] t.1) = S.items :=
    List.filter_eq_self.2 (fun a _ => rfl)
  refine ⟨⟨S.names, S.types.map dtype, .list S.descriptions.elems⟩,
    ?_, ?_, ?_⟩
  · show mkSchema
        ((S.items.filter (fun t => !List.contains [] t.1)).map (fun t => t.1))
        ((S.items.filter (fun t => !List.contains [] t.1)).map
          (fun t => t.2.1))
        (some (.list ((S.items.filter (fun t => !List.contains [] t.1)).map
          (fun t => t.2.2))))
      = .ok ⟨S.names, S.types.map dtype, .list S.descriptions.elems⟩
    rw [hfilter]
    unfold Schema.items
    rw [zip3_map_fst S.names S.types S.descriptions.elems hal1 hal2,
      zip3_map_snd S.names S.types S.descriptions.elems hal1 hal2,
      zip3_map_thd S.names S.types S.descriptions.elems hal1 hal2]
    exact mkSchema_ok _ _ hnd
  · show Schema.equals ⟨S.names, S.types.map dtype,
      .list S.descriptions.elems⟩ S = true
    simp [Schema.equals, PySeq.pyEq, PySeq.elems, hD, map_dtype_id]
  · show Schema.equals S ⟨S.names, S.types.map dtype,
      .list S.descriptions.elems⟩ = true
    simp [Schema.equals, PySeq.pyEq, PySeq.elems, hD, map_dtype_id]

/-- C10 witness: deleting the empty set from a concrete two-column schema
returns an equal schema. -/
theorem c10_delete_empty_witness :
    ∃ S', Schema.delete
        ⟨["a", "b"], [.int8, .int16], .list [some "d", none]⟩ [] = .ok S' ∧
      S'.equals ⟨["a", "b"], [.int8, .int16], .list [some "d", none]⟩
        = true ∧
      Schema.equals ⟨["a", "b"], [.int8, .int16], .list [some "d", none]⟩
        S' = true :=
  c10_delete_empty_equal
    ⟨["a", "b"], [.int8, .int16], .list [some "d", none]⟩
    (by decide) (by decide)
